import Mathlib

/-!
Verification development for the multi-agent orchestrator backend.

The definitions below are a shallow embedding of the Python sources:
`backend/message_broker.py` (Message, MessageBroker), `backend/task_scheduler.py`
(Task, TaskScheduler) and `backend/agent.py` (Agent.think).  Python dicts are
modelled as insertion-ordered association lists, `datetime.now()` as a natural
number read from the state (advanced explicitly with `tick` between operations),
`uuid.uuid4()` as a counter rendered through `uuidName`, floats (task progress)
as rationals (the operations used on them - `max`, `min`, comparisons - are
exact), and `asyncio.Queue` inboxes as lists with `put` appending at the end.
Database writes are kept as traces (`db_rows` for INSERTs); database errors are
swallowed by the source (`try/except` around every query) and hence not modelled.
-/

namespace MiniS

/-- Association-list lookup: the first binding of a key wins, matching a
Python dict in which every key occurs once. -/
def lookupA {α : Type} : List (String × α) → String → Option α
  | [], _ => none
  | (k, v) :: rest, key => if k = key then some v else lookupA rest key

/-- Update the (first) binding of a key in place, preserving order; models
mutation of the object stored under that key in a Python dict. -/
def updateA {α : Type} (key : String) (f : α → α) : List (String × α) → List (String × α)
  | [] => []
  | (k, v) :: rest => if k = key then (k, f v) :: rest else (k, v) :: updateA key f rest

/-- Python dict assignment `d[k] = v`: overwrite in place if the key exists,
otherwise append at the end (dicts preserve insertion order). -/
def setA {α : Type} (key : String) (v : α) (l : List (String × α)) : List (String × α) :=
  if (lookupA l key).isSome then updateA key (fun _ => v) l else l ++ [(key, v)]

/-- Rendering of the uuid counter: the n-th identifier minted by the system. -/
def uuidName (n : Nat) : String := "uuid-" ++ toString n

/-- MessageType enum from backend/message_broker.py. -/
inductive MessageType where
  | request | response | notification | task_assignment
  | task_completion | broadcast | system
deriving DecidableEq, Repr

/-- Message dataclass from backend/message_broker.py; the two defaulted fields
carry the dataclass defaults (`requires_response = False`, `priority = 1`). -/
structure Message where
  id : String
  sender : String
  recipient : String
  message_type : MessageType
  content : String
  metadata : List (String × String)
  timestamp : Nat
  conversation_id : Option String := none
  requires_response : Bool := false
  priority : Nat := 1
deriving DecidableEq, Repr

/-- State of a MessageBroker: per-agent inbox queues (insertion-ordered dict of
lists, enqueue = append), the audit-log trace of `_log_message_to_db`, and the
uuid counter. -/
structure BrokerState where
  agent_queues : List (String × List Message)
  db_log : List Message
  nextId : Nat
deriving Repr

/-- The per-recipient copy constructed inside `MessageBroker._broadcast_message`:
a fresh id, the original's sender, type, content, metadata, timestamp and
conversation id; `requires_response` and `priority` are not passed and take the
dataclass defaults. -/
def bcopy (m : Message) (aid : String) (n : Nat) : Message :=
  { id := uuidName n
    sender := m.sender
    recipient := aid
    message_type := m.message_type
    content := m.content
    metadata := m.metadata
    timestamp := m.timestamp
    conversation_id := m.conversation_id }

/-- One step of the fan-out loop in `_broadcast_message`: skip the sender,
otherwise enqueue a re-minted copy on that agent's queue, bump the uuid counter
and the success count. -/
def bstep (m : Message) (st : List (String × List Message) × Nat × Nat) (aid : String) :
    List (String × List Message) × Nat × Nat :=
  if aid = m.sender then st
  else (updateA aid (fun q => q ++ [bcopy m aid st.2.1]) st.1, st.2.1 + 1, st.2.2 + 1)

/-- `MessageBroker._broadcast_message`: iterate over the registered agents in
dict order, enqueue a fresh copy for every agent other than the sender, and
report success iff at least one copy was enqueued. -/
def broadcast_message (m : Message) (s : BrokerState) : Bool × BrokerState :=
  let r := (s.agent_queues.map Prod.fst).foldl (bstep m) (s.agent_queues, s.nextId, 0)
  (decide (0 < r.2.2), { s with agent_queues := r.1, nextId := r.2.1 })

/-- `MessageBroker.send_message`: audit-log the message, then either fan out
(recipient "ALL" or broadcast type) or enqueue on the recipient's inbox,
returning False when the recipient is not registered. -/
def send_message (m : Message) (s : BrokerState) : Bool × BrokerState :=
  if m.recipient = "ALL" ∨ m.message_type = MessageType.broadcast then
    broadcast_message m { s with db_log := s.db_log ++ [m] }
  else
    match lookupA s.agent_queues m.recipient with
    | some _ => (true, { s with
        db_log := s.db_log ++ [m]
        agent_queues := updateA m.recipient (fun q => q ++ [m]) s.agent_queues })
    | none => (false, { s with db_log := s.db_log ++ [m] })

/-- TaskStatus enum from backend/task_scheduler.py. -/
inductive TaskStatus where
  | pending | assigned | in_progress | completed | failed | cancelled | blocked
deriving DecidableEq, Repr

/-- Task dataclass from backend/task_scheduler.py.  `priority` holds the
TaskPriority enum value (1-4), timestamps are clock ticks, `progress` is a
rational standing for the float, and the opaque `metadata` dict is dropped
(no operation modelled here reads it). -/
structure Task where
  id : String
  title : String
  description : String
  assigned_agent : Option String
  created_by : String
  status : TaskStatus
  priority : Nat
  created_at : Nat
  updated_at : Nat
  due_date : Option Nat
  dependencies : List String
  subtasks : List String
  parent_task : Option String
  progress : ℚ
  result : Option String
  error_message : Option String
deriving DecidableEq, Repr

/-- State of a TaskScheduler: the `tasks` dict, the `agent_workloads` dict, the
trace of messages handed to `message_broker.send_message`, the trace of rows
INSERTed by `_save_task_to_db`, the clock read by `datetime.now()`, and the
uuid counter. -/
structure SchedState where
  tasks : List (String × Task)
  agent_workloads : List (String × List String)
  sent : List Message
  db_rows : List Task
  now : Nat
  nextId : Nat
deriving Repr

/-- The empty scheduler state (fresh `TaskScheduler.__init__`). -/
def SchedState.empty : SchedState :=
  { tasks := [], agent_workloads := [], sent := [], db_rows := [], now := 0, nextId := 0 }

/-- Advance the modelled wall clock between operations (`datetime.now()` is
nondecreasing; within one operation the source reads it as one instant). -/
def tick (s : SchedState) : SchedState := { s with now := s.now + 1 }

/-- `TaskScheduler._check_dependencies`: every dependency must name an existing
task whose status is completed; a missing dependency fails the check. -/
def check_dependencies (s : SchedState) (t : Task) : Bool :=
  t.dependencies.all fun dep =>
    match lookupA s.tasks dep with
    | some dt => dt.status = TaskStatus.completed
    | none => false

/-- One step of `TaskScheduler._check_dependent_tasks`: if the task depends on
the completed id, is blocked and its dependencies are all completed now, set it
pending. -/
def sweepStep (cid : String) (s : SchedState) (tid : String) : SchedState :=
  match lookupA s.tasks tid with
  | none => s
  | some t =>
    if cid ∈ t.dependencies ∧ t.status = TaskStatus.blocked ∧ check_dependencies s t = true then
      { s with tasks :=
          updateA tid (fun u => { u with status := TaskStatus.pending, updated_at := s.now }) s.tasks }
    else s

/-- `TaskScheduler._check_dependent_tasks`: iterate over all tasks in dict
order and unblock those whose dependencies are now satisfied. -/
def check_dependent_tasks (cid : String) (s : SchedState) : SchedState :=
  (s.tasks.map Prod.fst).foldl (sweepStep cid) s

/-- The `task_assignment` message built inside `TaskScheduler.assign_task`
through `message_broker.create_message` (which mints a fresh id and stamps the
current time; unsupplied fields keep the dataclass defaults). -/
def assignmentMessage (tid aid : String) (t : Task) (mid ts : Nat) : Message :=
  { id := uuidName mid
    sender := "TaskScheduler"
    recipient := aid
    message_type := MessageType.task_assignment
    content := "New task assigned: " ++ t.title ++ "\n\nDescription: " ++ t.description
    metadata := [("task_id", tid), ("priority", toString t.priority),
                 ("due_date", match t.due_date with | some d => toString d | none => "None")]
    timestamp := ts }

/-- `TaskScheduler.assign_task`: missing task fails; unmet dependencies move
the task to blocked and fail; otherwise set assignee and status, append to the
agent's workload list, send one `task_assignment` message and succeed. -/
def assign_task (tid aid : String) (s : SchedState) : Bool × SchedState :=
  match lookupA s.tasks tid with
  | none => (false, s)
  | some t =>
    if check_dependencies s t = false then
      (false, { s with tasks := updateA tid (fun u => { u with status := TaskStatus.blocked }) s.tasks })
    else
      let t' := { t with assigned_agent := some aid, status := TaskStatus.assigned, updated_at := s.now }
      let w0 := (lookupA s.agent_workloads aid).getD []
      (true, { s with
        tasks := updateA tid (fun _ => t') s.tasks
        agent_workloads := setA aid (w0 ++ [tid]) s.agent_workloads
        sent := s.sent ++ [assignmentMessage tid aid t s.nextId s.now]
        nextId := s.nextId + 1 })

/-- `TaskScheduler.create_task`: build the task (status pending, progress 0),
store it, append to the parent's subtasks when the parent exists, persist the
row, and auto-assign when an agent was supplied; the (possibly mutated) task
object is returned. -/
def create_task (title description created_by : String) (assigned_agent : Option String)
    (priority : Nat) (due_date : Option Nat) (dependencies : List String)
    (parent_task : Option String) (s : SchedState) : Task × SchedState :=
  let tid := uuidName s.nextId
  let task : Task :=
    { id := tid, title := title, description := description
      assigned_agent := assigned_agent, created_by := created_by
      status := TaskStatus.pending, priority := priority
      created_at := s.now, updated_at := s.now, due_date := due_date
      dependencies := dependencies, subtasks := [], parent_task := parent_task
      progress := 0, result := none, error_message := none }
  let s1 := { s with tasks := setA tid task s.tasks, nextId := s.nextId + 1 }
  let s2 := match parent_task with
    | some p =>
      if (lookupA s1.tasks p).isSome then
        { s1 with tasks := updateA p (fun pt => { pt with subtasks := pt.subtasks ++ [tid] }) s1.tasks }
      else s1
    | none => s1
  let s3 := { s2 with db_rows := s2.db_rows ++ [task] }
  match assigned_agent with
  | some a =>
    let r := assign_task tid a s3
    ((lookupA r.2.tasks tid).getD task, r.2)
  | none => (task, s3)

/-- The status rule of `TaskScheduler.update_task_progress`: an explicit
status wins, else raw progress ≥ 1 completes, else raw progress > 0 starts
the task, else the status is left alone. -/
def newStatusOf (t : Task) (progress : ℚ) (status : Option TaskStatus) : TaskStatus :=
  match status with
  | some st => st
  | none =>
    if 1 ≤ progress then TaskStatus.completed
    else if 0 < progress then TaskStatus.in_progress
    else t.status

/-- `TaskScheduler.update_task_progress`: clamp progress to [0,1]; the status
follows `newStatusOf`; when the resulting status is completed, run the
unblock sweep. -/
def update_task_progress (tid : String) (progress : ℚ) (status : Option TaskStatus)
    (s : SchedState) : Bool × SchedState :=
  match lookupA s.tasks tid with
  | none => (false, s)
  | some t =>
    let newStatus := newStatusOf t progress status
    let t' := { t with progress := max 0 (min 1 progress), updated_at := s.now, status := newStatus }
    let s1 := { s with tasks := updateA tid (fun _ => t') s.tasks }
    if newStatus = TaskStatus.completed then (true, check_dependent_tasks tid s1) else (true, s1)

/-- Remove a task id from its assigned agent's workload list, as done in
`complete_task` and `fail_task` (`list.remove` drops the first occurrence). -/
def removeFromWorkload (t : Task) (tid : String) (w : List (String × List String)) :
    List (String × List String) :=
  match t.assigned_agent with
  | some a =>
    match lookupA w a with
    | some wl => if tid ∈ wl then updateA a (fun l => l.erase tid) w else w
    | none => w
  | none => w

/-- The `task_completion` message built inside `TaskScheduler.complete_task`. -/
def completionMessage (tid : String) (t : Task) (result : Option String) (mid ts : Nat) : Message :=
  { id := uuidName mid
    sender := "TaskScheduler"
    recipient := t.created_by
    message_type := MessageType.task_completion
    content := "Task completed: " ++ t.title
    metadata := [("task_id", tid), ("result", (result.getD "None"))]
    timestamp := ts }

/-- `TaskScheduler.complete_task`: set completed with progress 1 and the given
result, remove from the assignee's workload, notify the creator when the
creator differs from the assignee, then run the unblock sweep. -/
def complete_task (tid : String) (result : Option String) (s : SchedState) : Bool × SchedState :=
  match lookupA s.tasks tid with
  | none => (false, s)
  | some t =>
    let t' := { t with status := TaskStatus.completed, progress := 1,
                       result := result, updated_at := s.now }
    let s1 := { s with tasks := updateA tid (fun _ => t') s.tasks
                       agent_workloads := removeFromWorkload t tid s.agent_workloads }
    let s2 :=
      if t.assigned_agent ≠ some t.created_by then
        { s1 with sent := s1.sent ++ [completionMessage tid t result s1.nextId s1.now]
                  nextId := s1.nextId + 1 }
      else s1
    (true, check_dependent_tasks tid s2)

/-- The failure `notification` message built inside `TaskScheduler.fail_task`. -/
def failureMessage (tid : String) (t : Task) (err : String) (mid ts : Nat) : Message :=
  { id := uuidName mid
    sender := "TaskScheduler"
    recipient := t.created_by
    message_type := MessageType.notification
    content := "Task failed: " ++ t.title ++ "\nError: " ++ err
    metadata := [("task_id", tid), ("error", err)]
    timestamp := ts }

/-- `TaskScheduler.fail_task`: set failed with the error message, remove from
the assignee's workload, and notify the creator unconditionally (no sweep). -/
def fail_task (tid err : String) (s : SchedState) : Bool × SchedState :=
  match lookupA s.tasks tid with
  | none => (false, s)
  | some t =>
    let t' := { t with status := TaskStatus.failed, error_message := some err, updated_at := s.now }
    let s1 := { s with tasks := updateA tid (fun _ => t') s.tasks
                       agent_workloads := removeFromWorkload t tid s.agent_workloads }
    (true, { s1 with sent := s1.sent ++ [failureMessage tid t err s1.nextId s1.now]
                     nextId := s1.nextId + 1 })

/-- `TaskScheduler.get_agent_workload`: the tasks named by the agent's workload
list, skipping ids no longer present in the tasks dict. -/
def get_agent_workload (aid : String) (s : SchedState) : List Task :=
  match lookupA s.agent_workloads aid with
  | none => []
  | some ids => ids.filterMap (lookupA s.tasks)

/-- The filter of `TaskScheduler.get_available_tasks`: pending, dependencies
satisfied, and when an agent is given, unassigned or assigned to that agent. -/
def availPred (s : SchedState) (agent_id : Option String) (t : Task) : Bool :=
  t.status = TaskStatus.pending ∧ check_dependencies s t = true ∧
    (agent_id = none ∨ t.assigned_agent = none ∨ t.assigned_agent = agent_id)

/-- The sort key of `TaskScheduler.get_available_tasks`: the Python tuple
`(priority.value, created_at)`. -/
def sortKey (t : Task) : Nat × Nat := (t.priority, t.created_at)

/-- Strict lexicographic order on the sort key (Python tuple comparison). -/
def keyLt (a b : Nat × Nat) : Prop := a.1 < b.1 ∨ (a.1 = b.1 ∧ a.2 < b.2)

instance (a b : Nat × Nat) : Decidable (keyLt a b) := by
  unfold keyLt; infer_instance

/-- Stable descending insertion: place the new element before the first element
that is not strictly greater, keeping earlier elements of equal key in front.
Together with `pySortDesc` this is `list.sort(key=..., reverse=True)`: Python's
sort is stable and `reverse=True` preserves the original order of equal keys. -/
def insertDesc (a : Task) : List Task → List Task
  | [] => [a]
  | b :: bs => if keyLt (sortKey a) (sortKey b) then b :: insertDesc a bs else a :: b :: bs

/-- Stable sort, descending in the lexicographic key (see `insertDesc`). -/
def pySortDesc (l : List Task) : List Task := l.foldr insertDesc []

/-- `TaskScheduler.get_available_tasks`: filter the tasks in dict order, then
sort by `(priority, created_at)` descending, stably. -/
def get_available_tasks (agent_id : Option String) (s : SchedState) : List Task :=
  pySortDesc ((s.tasks.map Prod.snd).filter (availPred s agent_id))

/-- Result of `Agent._parse_llm_response` (backend/agent.py): a fenced JSON
object with both a tool key and an args key is a tool call; anything else is
the final answer.  The claims quantify over all model outputs, so the model is
given at this post-parse granularity (the source's fenced-JSON slicing is
explicitly outside the contract); `args` keeps the printed form of the
argument dict since `think` only ever interpolates it into history text. -/
inductive ParsedAction where
  | toolCall (name : String) (args : String)
  | finalAnswer (text : String)
deriving DecidableEq, Repr

/-- Whether a parsed action is a final answer. -/
def ParsedAction.isFinal : ParsedAction → Bool
  | .finalAnswer _ => true
  | .toolCall _ _ => false

/-- The text of a final answer (junk on a tool call). -/
def ParsedAction.finalText : ParsedAction → String
  | .finalAnswer a => a
  | .toolCall _ _ => ""

/-- What `Agent.think` returns, instrumented with the number of
`llm_provider.generate` calls made and the final history string. -/
structure ThinkResult where
  answer : String
  calls : Nat
  history : String
deriving DecidableEq, Repr

/-- The deterministic fallback returned by `Agent.think` when the iteration
cap is reached. -/
def fallbackAnswer : String :=
  "I could not determine a final answer within the allowed number of steps."

/-- The history line appended after a successful tool execution. -/
def okObs (nm args res : String) : String :=
  "\nAction: Used tool '" ++ nm ++ "' with arguments " ++ args ++ ".\nObservation: " ++ res ++ "\n"

/-- The history line appended when a tool raises: the exception is caught and
recorded as an observation. -/
def errorObs (nm e : String) : String :=
  "\nAction: Used tool '" ++ nm ++ "'.\nObservation: Error executing tool: " ++ e ++ "\n"

/-- The history line appended when the named tool is unknown to the manager or
not in the agent's allowed set. -/
def unavailableObs (nm : String) : String :=
  "\nAction: Tried to use tool '" ++ nm ++ "'.\nObservation: Error: Tool not available.\n"

/-- The history `Agent.think` starts from. -/
def initialHistory (prompt : String) : String := "User Query: " ++ prompt ++ "\n"

/-- The loop body of `Agent.think` (backend/agent.py lines 110-139), recursing
on the remaining iterations.  `gen i` is the parsed response of the i-th
`generate` call, `texec i` the outcome of the tool execution attempted at
iteration i (`Except.error` models a raised exception, which the source
catches).  `mgr` is the tool manager's tool-name table (`get_tool` succeeds iff
the name is in it) and `ats` the agent's own tool list, so the source's
`tool and tool in self.tools` guard is `mgr.contains nm && ats.contains nm`. -/
def thinkLoop (gen : Nat → ParsedAction) (texec : Nat → Except String String)
    (mgr ats : List String) : Nat → Nat → String → ThinkResult
  | 0, i, h => { answer := fallbackAnswer, calls := i, history := h }
  | r + 1, i, h =>
    match gen i with
    | .finalAnswer a => { answer := a, calls := i + 1, history := h }
    | .toolCall nm args =>
      if mgr.contains nm && ats.contains nm then
        match texec i with
        | .ok res => thinkLoop gen texec mgr ats r (i + 1) (h ++ okObs nm args res)
        | .error e => thinkLoop gen texec mgr ats r (i + 1) (h ++ errorObs nm e)
      else thinkLoop gen texec mgr ats r (i + 1) (h ++ unavailableObs nm)

/-- `Agent.think`: run the reason-act loop for at most `max_iterations`
iterations starting from the user-query history. -/
def think (gen : Nat → ParsedAction) (texec : Nat → Except String String)
    (mgr ats : List String) (prompt : String) (max_iterations : Nat) : ThinkResult :=
  thinkLoop gen texec mgr ats max_iterations 0 (initialHistory prompt)

/-! Concrete states used by counterexamples and witnesses.  Scheduler states
are reached from the empty scheduler through the public operations only. -/

/-- A broker with three registered agents and a registered sender "u". -/
def brokerEx : BrokerState :=
  { agent_queues := [("A1", []), ("A2", []), ("A3", []), ("u", [])], db_log := [], nextId := 0 }

/-- A broadcast message from "u" with non-default priority and
requires_response, to exercise the re-minting defaults. -/
def bmEx : Message :=
  { id := "orig", sender := "u", recipient := "ALL", message_type := MessageType.request
    content := "hi", metadata := [("k", "v")], timestamp := 7
    conversation_id := some "conv", requires_response := true, priority := 3 }

/-- Create a task (id "uuid-0") whose dependency list names a task that does
not exist. -/
def exC1 : Task × SchedState :=
  create_task "T" "d" "u" none 2 none ["missing"] none SchedState.empty

/-- Create a dependency-free task "uuid-0". -/
def exTerm0 : Task × SchedState := create_task "T" "d" "u" none 2 none [] none SchedState.empty

/-- ... complete it (terminal state). -/
def exTerm1 : Bool × SchedState := complete_task "uuid-0" none exTerm0.2

/-- ... then assign the completed task to agent "A". -/
def exTerm2 : Bool × SchedState := assign_task "uuid-0" "A" exTerm1.2

/-- Assign the fresh task "uuid-0" to agent "A". -/
def exWork1 : Bool × SchedState := assign_task "uuid-0" "A" exTerm0.2

/-- ... then drive it to completion through update_task_progress. -/
def exWork2 : Bool × SchedState := update_task_progress "uuid-0" 1 none exWork1.2

/-- Create "uuid-0", then "uuid-1" depending on it with a designated agent
(auto-assignment blocks it), then assign "uuid-0" to the agent. -/
def exDep2 : Bool × SchedState :=
  assign_task "uuid-0" "A1"
    (create_task "T2" "d2" "u" (some "A1") 2 none ["uuid-0"] none
      (create_task "T1" "d1" "u" none 2 none [] none SchedState.empty).2).2

/-- ... and complete "uuid-0", firing the unblock sweep over "uuid-1". -/
def exDep3 : Bool × SchedState := complete_task "uuid-0" none exDep2.2

/-- Two equal-priority pending tasks created one clock tick apart:
"uuid-0" at time 0, "uuid-1" at time 1. -/
def exAvail : Task × SchedState :=
  create_task "T2" "d" "u" none 2 none [] none
    (tick (create_task "T1" "d" "u" none 2 none [] none SchedState.empty).2)

/-- Fixture builder for witness states: a task created by "u" with priority
medium at time 0. -/
def mkExTask (id title description : String) (assigned_agent : Option String)
    (status : TaskStatus) (dependencies : List String) (progress : ℚ) : Task :=
  { id := id, title := title, description := description
    assigned_agent := assigned_agent, created_by := "u", status := status
    priority := 2, created_at := 0, updated_at := 0, due_date := none
    dependencies := dependencies, subtasks := [], parent_task := none
    progress := progress, result := none, error_message := none }

/-- The completed task stored under "uuid-0" in `exTerm1`. -/
def exTermTask : Task := mkExTask "uuid-0" "T" "d" none TaskStatus.completed [] 1

/-- The fresh pending task stored under "uuid-0" in `exTerm0`. -/
def exPendingTask : Task := mkExTask "uuid-0" "T" "d" none TaskStatus.pending [] 0

/-- The assigned task "uuid-0" in `exDep2`. -/
def exAssignedT1 : Task := mkExTask "uuid-0" "T1" "d1" (some "A1") TaskStatus.assigned [] 0

/-- The blocked dependent task "uuid-1" in `exDep2`. -/
def exBlockedT2 : Task :=
  mkExTask "uuid-1" "T2" "d2" (some "A1") TaskStatus.blocked ["uuid-0"] 0

/-- The assigned task "uuid-0" in `exWork1`. -/
def exAssignedTask : Task := mkExTask "uuid-0" "T" "d" (some "A") TaskStatus.assigned [] 0

section ThinkLemmas

variable (gen : Nat → ParsedAction) (texec : Nat → Except String String) (mgr ats : List String)

/-- Each loop iteration makes exactly one model call, so `calls` is bounded by
the starting index plus the remaining fuel. -/
lemma thinkLoop_calls_le : ∀ (r i : Nat) (h : String),
    (thinkLoop gen texec mgr ats r i h).calls ≤ i + r := by
  intro r
  induction r with
  | zero => intro i h; simp [thinkLoop]
  | succ r ih =>
    intro i h
    simp only [thinkLoop]
    cases hg : gen i with
    | finalAnswer a => show i + 1 ≤ i + (r + 1); omega
    | toolCall nm args =>
      by_cases hc : (mgr.contains nm && ats.contains nm) = true
      · simp only [hc, if_pos]
        cases ht : texec i with
        | ok res => exact le_trans (ih (i + 1) _) (by omega)
        | error e => exact le_trans (ih (i + 1) _) (by omega)
      · simp only [hc, if_neg, Bool.false_eq_true, not_false_eq_true]
        exact le_trans (ih (i + 1) _) (by omega)

/-- If no remaining response is a final answer, the loop runs out of fuel and
returns the fallback string. -/
lemma thinkLoop_fallback : ∀ (r i : Nat) (h : String),
    (∀ j, i ≤ j → j < i + r → (gen j).isFinal = false) →
    (thinkLoop gen texec mgr ats r i h).answer = fallbackAnswer := by
  intro r
  induction r with
  | zero => intro i h _; simp [thinkLoop]
  | succ r ih =>
    intro i h hnf
    simp only [thinkLoop]
    cases hg : gen i with
    | finalAnswer a =>
      have := hnf i le_rfl (by omega)
      rw [hg] at this
      simp [ParsedAction.isFinal] at this
    | toolCall nm args =>
      have hrest : ∀ j, i + 1 ≤ j → j < i + 1 + r → (gen j).isFinal = false := by
        intro j hj hj'; exact hnf j (by omega) (by omega)
      by_cases hc : (mgr.contains nm && ats.contains nm) = true
      · simp only [hc, if_pos]
        cases ht : texec i with
        | ok res => exact ih (i + 1) _ hrest
        | error e => exact ih (i + 1) _ hrest
      · simp only [hc, if_neg, Bool.false_eq_true, not_false_eq_true]
        exact ih (i + 1) _ hrest

/-- The loop returns the text of the first final answer within the fuel,
having made exactly that many model calls. -/
lemma thinkLoop_first_final : ∀ (r i : Nat) (h : String) (j : Nat),
    i ≤ j → j < i + r → (gen j).isFinal = true →
    (∀ l, i ≤ l → l < j → (gen l).isFinal = false) →
    (thinkLoop gen texec mgr ats r i h).answer = (gen j).finalText ∧
      (thinkLoop gen texec mgr ats r i h).calls = j + 1 := by
  intro r
  induction r with
  | zero => intro i h j h1 h2; omega
  | succ r ih =>
    intro i h j hij hjr hfin hbefore
    simp only [thinkLoop]
    cases hg : gen i with
    | finalAnswer a =>
      have hij' : i = j := by
        by_contra hne
        have := hbefore i le_rfl (by omega)
        rw [hg] at this
        simp [ParsedAction.isFinal] at this
      subst hij'
      rw [hg]
      simp [ParsedAction.finalText]
    | toolCall nm args =>
      have hij' : i < j := by
        rcases Nat.lt_or_ge i j with h' | h'
        · exact h'
        · have : i = j := by omega
          subst this
          rw [hg] at hfin
          simp [ParsedAction.isFinal] at hfin
      have hrest : ∀ l, i + 1 ≤ l → l < j → (gen l).isFinal = false := by
        intro l hl hl'; exact hbefore l (by omega) hl'
      by_cases hc : (mgr.contains nm && ats.contains nm) = true
      · simp only [hc, if_pos]
        cases ht : texec i with
        | ok res => exact ih (i + 1) _ j (by omega) (by omega) hfin hrest
        | error e => exact ih (i + 1) _ j (by omega) (by omega) hfin hrest
      · simp only [hc, if_neg, Bool.false_eq_true, not_false_eq_true]
        exact ih (i + 1) _ j (by omega) (by omega) hfin hrest

end ThinkLemmas

/-- C8: `think(prompt, k)` makes at most `k` model calls; when no response
within the cap is a final answer it returns the deterministic fallback string,
and when some response is, it returns the first such answer (having made one
call per iteration up to and including it). -/
theorem c8_iteration_cap (gen : Nat → ParsedAction) (texec : Nat → Except String String)
    (mgr ats : List String) (prompt : String) (k : Nat) :
    (think gen texec mgr ats prompt k).calls ≤ k ∧
    ((∀ i, i < k → (gen i).isFinal = false) →
      (think gen texec mgr ats prompt k).answer = fallbackAnswer) ∧
    (∀ j, j < k → (gen j).isFinal = true → (∀ i, i < j → (gen i).isFinal = false) →
      (think gen texec mgr ats prompt k).answer = (gen j).finalText ∧
        (think gen texec mgr ats prompt k).calls = j + 1) := by
  refine ⟨?_, ?_, ?_⟩
  · simpa using thinkLoop_calls_le gen texec mgr ats k 0 (initialHistory prompt)
  · intro hnf
    exact thinkLoop_fallback gen texec mgr ats k 0 (initialHistory prompt)
      (fun j _ hj => hnf j (by omega))
  · intro j hj hfin hbefore
    exact thinkLoop_first_final gen texec mgr ats k 0 (initialHistory prompt) j
      (by omega) (by omega) hfin (fun l _ hl => hbefore l hl)

/-- Witness for C8 at a concrete run: one tool call then a final answer,
under a cap of 3. -/
theorem c8_witness :
    (think (fun i => if i = 0 then ParsedAction.toolCall "t" "x" else ParsedAction.finalAnswer "ok")
        (fun _ => Except.ok "r") ["t"] ["t"] "q" 3).calls ≤ 3 ∧
    ((∀ i, i < 3 → ((fun i => if i = 0 then ParsedAction.toolCall "t" "x"
        else ParsedAction.finalAnswer "ok") i).isFinal = false) →
      (think (fun i => if i = 0 then ParsedAction.toolCall "t" "x" else ParsedAction.finalAnswer "ok")
        (fun _ => Except.ok "r") ["t"] ["t"] "q" 3).answer = fallbackAnswer) ∧
    (∀ j, j < 3 → ((fun i => if i = 0 then ParsedAction.toolCall "t" "x"
        else ParsedAction.finalAnswer "ok") j).isFinal = true →
      (∀ i, i < j → ((fun i => if i = 0 then ParsedAction.toolCall "t" "x"
        else ParsedAction.finalAnswer "ok") i).isFinal = false) →
      (think (fun i => if i = 0 then ParsedAction.toolCall "t" "x" else ParsedAction.finalAnswer "ok")
        (fun _ => Except.ok "r") ["t"] ["t"] "q" 3).answer =
          ((fun i => if i = 0 then ParsedAction.toolCall "t" "x"
            else ParsedAction.finalAnswer "ok") j).finalText ∧
      (think (fun i => if i = 0 then ParsedAction.toolCall "t" "x" else ParsedAction.finalAnswer "ok")
        (fun _ => Except.ok "r") ["t"] ["t"] "q" 3).calls = j + 1) :=
  c8_iteration_cap (fun i => if i = 0 then ParsedAction.toolCall "t" "x"
    else ParsedAction.finalAnswer "ok") (fun _ => Except.ok "r") ["t"] ["t"] "q" 3

/-- C9: a raised error inside a tool's execute never escapes `think` - the
loop records an error observation in the history and continues, and an unknown
or disallowed tool name yields a Tool-not-available observation instead of
failing; in both cases the next iteration still runs and its final answer is
returned. -/
theorem c9_tool_errors_nonfatal (gen : Nat → ParsedAction)
    (texec : Nat → Except String String) (mgr ats : List String) (prompt : String)
    (k : Nat) (nm args a e : String)
    (hk : 2 ≤ k) (h0 : gen 0 = ParsedAction.toolCall nm args)
    (h1 : gen 1 = ParsedAction.finalAnswer a) :
    ((mgr.contains nm && ats.contains nm) = true → texec 0 = Except.error e →
      think gen texec mgr ats prompt k =
        { answer := a, calls := 2, history := initialHistory prompt ++ errorObs nm e }) ∧
    ((mgr.contains nm && ats.contains nm) = false →
      think gen texec mgr ats prompt k =
        { answer := a, calls := 2, history := initialHistory prompt ++ unavailableObs nm }) := by
  obtain ⟨r, rfl⟩ : ∃ r, k = r + 2 := ⟨k - 2, by omega⟩
  constructor
  · intro hc he
    show thinkLoop gen texec mgr ats (r + 1 + 1) 0 (initialHistory prompt) = _
    simp only [thinkLoop, h0, hc, if_pos, he]
    simp only [thinkLoop, h1]
  · intro hc
    show thinkLoop gen texec mgr ats (r + 1 + 1) 0 (initialHistory prompt) = _
    simp only [thinkLoop, h0, hc, Bool.false_eq_true, if_neg, not_false_eq_true]
    simp only [thinkLoop, h1]

/-- Witness for C9: a run whose first response calls an erroring tool and whose
second response is the final answer, and a run calling an unavailable tool. -/
theorem c9_witness :
    ((["boom"].contains "boom" && ["boom"].contains "boom") = true →
      (fun _ => (Except.error "kaput" : Except String String)) 0 = Except.error "kaput" →
      think (fun i => if i = 0 then ParsedAction.toolCall "boom" "b"
          else ParsedAction.finalAnswer "done")
        (fun _ => Except.error "kaput") ["boom"] ["boom"] "q" 2 =
        { answer := "done", calls := 2,
          history := initialHistory "q" ++ errorObs "boom" "kaput" }) ∧
    ((["boom"].contains "boom" && ["boom"].contains "boom") = false →
      think (fun i => if i = 0 then ParsedAction.toolCall "boom" "b"
          else ParsedAction.finalAnswer "done")
        (fun _ => Except.error "kaput") ["boom"] ["boom"] "q" 2 =
        { answer := "done", calls := 2,
          history := initialHistory "q" ++ unavailableObs "boom" }) :=
  c9_tool_errors_nonfatal
    (fun i => if i = 0 then ParsedAction.toolCall "boom" "b" else ParsedAction.finalAnswer "done")
    (fun _ => Except.error "kaput") ["boom"] ["boom"] "q" 2 "boom" "b" "done" "kaput"
    (by omega) (by decide) (by decide)

/-! Association-list lemmas. -/

/-- Looking up after an in-place update: the updated key yields the mapped
value, every other key is untouched. -/
lemma lookupA_updateA {α : Type} (k x : String) (f : α → α) :
    ∀ l, lookupA (updateA k f l) x =
      if k = x then (lookupA l x).map f else lookupA l x := by
  intro l
  induction l with
  | nil => simp [updateA, lookupA]
  | cons p rest ih =>
    obtain ⟨a, v⟩ := p
    by_cases hak : a = k
    · subst hak
      by_cases hax : a = x
      · subst hax; simp [updateA, lookupA]
      · simp [updateA, lookupA, hax]
    · by_cases hax : a = x
      · subst hax
        simp [updateA, lookupA, hak, Ne.symm hak]
      · simp [updateA, lookupA, hak, hax, ih]

/-- Lookup distributes over append, first list wins. -/
lemma lookupA_append {α : Type} (x : String) :
    ∀ l₁ l₂ : List (String × α), lookupA (l₁ ++ l₂) x =
      match lookupA l₁ x with
      | some v => some v
      | none => lookupA l₂ x := by
  intro l₁ l₂
  induction l₁ with
  | nil => simp [lookupA]
  | cons p rest ih =>
    obtain ⟨a, v⟩ := p
    by_cases hax : a = x
    · subst hax; simp [lookupA]
    · simp [lookupA, hax, ih]

/-- Dict assignment stores the value under the key. -/
lemma lookupA_setA_self {α : Type} (k : String) (v : α) (l : List (String × α)) :
    lookupA (setA k v l) k = some v := by
  unfold setA
  by_cases h : (lookupA l k).isSome
  · rw [if_pos h, lookupA_updateA, if_pos rfl]
    cases hl : lookupA l k with
    | none => rw [hl] at h; simp at h
    | some w => simp
  · rw [if_neg h, lookupA_append]
    cases hl : lookupA l k with
    | none => simp [lookupA]
    | some w => rw [hl] at h; simp at h

/-- Dict assignment leaves other keys untouched. -/
lemma lookupA_setA_ne {α : Type} (k x : String) (v : α) (l : List (String × α))
    (hx : k ≠ x) : lookupA (setA k v l) x = lookupA l x := by
  unfold setA
  by_cases h : (lookupA l k).isSome
  · rw [if_pos h, lookupA_updateA, if_neg hx]
  · rw [if_neg h, lookupA_append]
    cases hl : lookupA l x with
    | none => simp [lookupA, hx]
    | some w => simp

/-- A key with a binding occurs in the key list. -/
lemma mem_keys_of_lookupA {α : Type} (aid : String) :
    ∀ (l : List (String × α)) (q : α), lookupA l aid = some q → aid ∈ l.map Prod.fst := by
  intro l
  induction l with
  | nil => intro q h; simp [lookupA] at h
  | cons p rest ih =>
    obtain ⟨a, v⟩ := p
    intro q h
    by_cases hax : a = aid
    · subst hax; simp
    · simp only [lookupA, if_neg hax] at h
      exact List.mem_cons_of_mem _ (ih q h)

/-! Broadcast fan-out lemmas (MessageBroker). -/

/-- A fan-out step never shrinks the uuid counter. -/
lemma bstep_counter_le (m : Message) (st : List (String × List Message) × Nat × Nat)
    (aid : String) : st.2.1 ≤ (bstep m st aid).2.1 := by
  unfold bstep
  split
  · exact le_rfl
  · exact Nat.le_succ _

/-- The whole fan-out never shrinks the uuid counter. -/
lemma bgo_counter_le (m : Message) :
    ∀ (ks : List String) (st : List (String × List Message) × Nat × Nat),
      st.2.1 ≤ (ks.foldl (bstep m) st).2.1 := by
  intro ks
  induction ks with
  | nil => intro st; exact le_rfl
  | cons a rest ih =>
    intro st
    exact le_trans (bstep_counter_le m st a) (ih (bstep m st a))

/-- Keys not processed by the fan-out keep their queue. -/
lemma bgo_frame (m : Message) :
    ∀ (ks : List String) (st : List (String × List Message) × Nat × Nat) (aid : String),
      aid ∉ ks → lookupA (ks.foldl (bstep m) st).1 aid = lookupA st.1 aid := by
  intro ks
  induction ks with
  | nil => intro st aid _; rfl
  | cons a rest ih =>
    intro st aid haid
    have ha : a ≠ aid := fun h => haid (h ▸ List.mem_cons_self a rest)
    have hrest : aid ∉ rest := fun h => haid (List.mem_cons_of_mem a h)
    rw [List.foldl_cons, ih (bstep m st a) aid hrest]
    unfold bstep
    split
    · rfl
    · dsimp only
      rw [lookupA_updateA, if_neg ha]

/-- The sender's queue is never touched by the fan-out. -/
lemma bgo_sender (m : Message) :
    ∀ (ks : List String) (st : List (String × List Message) × Nat × Nat),
      lookupA (ks.foldl (bstep m) st).1 m.sender = lookupA st.1 m.sender := by
  intro ks
  induction ks with
  | nil => intro st; rfl
  | cons a rest ih =>
    intro st
    rw [List.foldl_cons, ih (bstep m st a)]
    unfold bstep
    split
    · rfl
    · next hne =>
      dsimp only
      rw [lookupA_updateA, if_neg hne]

/-- Each non-sender registered agent's queue gains exactly one re-minted copy
during the fan-out (key list assumed duplicate-free, as for a Python dict). -/
lemma bgo_enqueue (m : Message) :
    ∀ (ks : List String) (st : List (String × List Message) × Nat × Nat)
      (aid : String) (q : List Message),
      ks.Nodup → aid ∈ ks → aid ≠ m.sender → lookupA st.1 aid = some q →
      ∃ n, st.2.1 ≤ n ∧
        lookupA (ks.foldl (bstep m) st).1 aid = some (q ++ [bcopy m aid n]) := by
  intro ks
  induction ks with
  | nil => intro st aid q _ h; simp at h
  | cons a rest ih =>
    intro st aid q hnd hmem hsender hq
    obtain ⟨hanr, hndr⟩ := List.nodup_cons.mp hnd
    rw [List.foldl_cons]
    rcases List.mem_cons.mp hmem with rfl | hmr
    · -- the head is our agent: the step enqueues, the rest leaves it alone
      have hstep : lookupA (bstep m st aid).1 aid =
          some (q ++ [bcopy m aid st.2.1]) := by
        unfold bstep
        rw [if_neg hsender]
        dsimp only
        rw [lookupA_updateA, if_pos rfl, hq]
        rfl
      refine ⟨st.2.1, le_rfl, ?_⟩
      rw [bgo_frame m rest (bstep m st aid) aid hanr, hstep]
    · -- the head is another agent: the step preserves our queue
      have hpre : lookupA (bstep m st a).1 aid = some q := by
        unfold bstep
        split
        · exact hq
        · dsimp only
          have ha : a ≠ aid := fun h => (h ▸ hanr) hmr
          rw [lookupA_updateA, if_neg ha]
          exact hq
      obtain ⟨n, hn, hfinal⟩ := ih (bstep m st a) aid q hndr hmr hsender hpre
      exact ⟨n, le_trans (bstep_counter_le m st a) hn, hfinal⟩

/-- The success count after the fan-out is the number of registered non-sender
agents. -/
lemma bgo_count (m : Message) :
    ∀ (ks : List String) (st : List (String × List Message) × Nat × Nat),
      (ks.foldl (bstep m) st).2.2 = st.2.2 + (ks.filter (fun a => a ≠ m.sender)).length := by
  intro ks
  induction ks with
  | nil => intro st; simp
  | cons a rest ih =>
    intro st
    rw [List.foldl_cons, ih (bstep m st a)]
    by_cases ha : a = m.sender
    · simp [bstep, ha, List.filter_cons]
    · simp [bstep, ha, List.filter_cons]
      omega

/-- Combined effect of `send_message`: the broadcast path enqueues one
re-minted copy per non-sender registered agent and succeeds iff such an agent
exists; the direct path succeeds iff the recipient's inbox exists and then
appends the message itself. -/
lemma send_message_effect (s : BrokerState) (m : Message)
    (hnd : (s.agent_queues.map Prod.fst).Nodup) :
    ((m.recipient = "ALL" ∨ m.message_type = MessageType.broadcast) →
      (∀ aid q, aid ≠ m.sender → lookupA s.agent_queues aid = some q →
        ∃ n, s.nextId ≤ n ∧
          lookupA (send_message m s).2.agent_queues aid = some (q ++ [bcopy m aid n])) ∧
      lookupA (send_message m s).2.agent_queues m.sender = lookupA s.agent_queues m.sender ∧
      ((send_message m s).1 = true ↔ ∃ p ∈ s.agent_queues, p.1 ≠ m.sender)) ∧
    (¬(m.recipient = "ALL" ∨ m.message_type = MessageType.broadcast) →
      (send_message m s).1 = (lookupA s.agent_queues m.recipient).isSome ∧
      (∀ q, lookupA s.agent_queues m.recipient = some q →
        lookupA (send_message m s).2.agent_queues m.recipient = some (q ++ [m]))) := by
  constructor
  · intro hb
    have hsend : send_message m s =
        broadcast_message m { s with db_log := s.db_log ++ [m] } := by
      unfold send_message
      rw [if_pos hb]
    refine ⟨?_, ?_, ?_⟩
    · intro aid q haid hq
      rw [hsend]
      unfold broadcast_message
      dsimp only
      exact bgo_enqueue m (s.agent_queues.map Prod.fst)
        (s.agent_queues, s.nextId, 0) aid q hnd (mem_keys_of_lookupA aid _ q hq) haid hq
    · rw [hsend]
      unfold broadcast_message
      dsimp only
      exact bgo_sender m (s.agent_queues.map Prod.fst) (s.agent_queues, s.nextId, 0)
    · rw [hsend]
      unfold broadcast_message
      dsimp only
      rw [bgo_count m (s.agent_queues.map Prod.fst) (s.agent_queues, s.nextId, 0)]
      simp only [Nat.zero_add, decide_eq_true_eq]
      rw [List.length_pos]
      constructor
      · intro h
        obtain ⟨x, hx⟩ := List.exists_mem_of_ne_nil _ h
        obtain ⟨p, hp, hpx⟩ := List.mem_map.mp (List.mem_of_mem_filter hx)
        refine ⟨p, hp, ?_⟩
        have := List.of_mem_filter hx
        subst hpx
        simpa using this
      · intro ⟨p, hp, hps⟩
        intro hcon
        have : p.1 ∈ (s.agent_queues.map Prod.fst).filter (fun a => a ≠ m.sender) := by
          apply List.mem_filter.mpr
          exact ⟨List.mem_map.mpr ⟨p, hp, rfl⟩, by simpa using hps⟩
        rw [hcon] at this
        simp at this
  · intro hb
    unfold send_message
    rw [if_neg hb]
    cases hl : lookupA s.agent_queues m.recipient with
    | some q0 =>
      refine ⟨by simp [hl], ?_⟩
      intro q hq
      obtain rfl : q0 = q := by injection hq
      dsimp only
      rw [lookupA_updateA, if_pos rfl, hl]
      rfl
    | none =>
      refine ⟨by simp [hl], ?_⟩
      intro q hq
      simp at hq

/-- C6: for a broadcast (`recipient = "ALL"` or broadcast type) `send_message`
enqueues exactly one re-minted copy on every registered agent's inbox except
the sender's, leaves the sender's inbox alone, and succeeds iff at least one
recipient exists; a direct message succeeds iff the recipient's inbox exists,
in which case exactly the original message is enqueued there. -/
theorem c6_send_message_fanout (s : BrokerState) (m : Message)
    (hnd : (s.agent_queues.map Prod.fst).Nodup) :
    ((m.recipient = "ALL" ∨ m.message_type = MessageType.broadcast) →
      (∀ aid q, aid ≠ m.sender → lookupA s.agent_queues aid = some q →
        ∃ n, s.nextId ≤ n ∧
          lookupA (send_message m s).2.agent_queues aid = some (q ++ [bcopy m aid n])) ∧
      lookupA (send_message m s).2.agent_queues m.sender = lookupA s.agent_queues m.sender ∧
      ((send_message m s).1 = true ↔ ∃ p ∈ s.agent_queues, p.1 ≠ m.sender)) ∧
    (¬(m.recipient = "ALL" ∨ m.message_type = MessageType.broadcast) →
      (send_message m s).1 = (lookupA s.agent_queues m.recipient).isSome ∧
      (∀ q, lookupA s.agent_queues m.recipient = some q →
        lookupA (send_message m s).2.agent_queues m.recipient = some (q ++ [m]))) :=
  send_message_effect s m hnd

/-- Witness for C6 at the concrete broker: agent "A1" receives exactly one
copy of the broadcast from "u". -/
theorem c6_witness :
    ∃ n, brokerEx.nextId ≤ n ∧
      lookupA (send_message bmEx brokerEx).2.agent_queues "A1" =
        some ([] ++ [bcopy bmEx "A1" n]) :=
  ((c6_send_message_fanout brokerEx bmEx (by decide)).1 (by decide)).1 "A1" []
    (by decide) (by decide)

/-- C10: every copy enqueued by a broadcast fan-out is re-minted with the
dataclass defaults `priority = 1` and `requires_response = false` regardless of
the original's values, while sender, type, content, metadata, timestamp and
conversation id are carried over from the original. -/
theorem c10_broadcast_copy_defaults (s : BrokerState) (m : Message)
    (hnd : (s.agent_queues.map Prod.fst).Nodup)
    (hb : m.recipient = "ALL" ∨ m.message_type = MessageType.broadcast) :
    ∀ aid q, aid ≠ m.sender → lookupA s.agent_queues aid = some q →
      ∃ c, lookupA (send_message m s).2.agent_queues aid = some (q ++ [c]) ∧
        c.priority = 1 ∧ c.requires_response = false ∧
        c.sender = m.sender ∧ c.recipient = aid ∧ c.message_type = m.message_type ∧
        c.content = m.content ∧ c.metadata = m.metadata ∧ c.timestamp = m.timestamp ∧
        c.conversation_id = m.conversation_id := by
  intro aid q haid hq
  obtain ⟨n, _, hcopy⟩ :=
    ((send_message_effect s m hnd).1 hb).1 aid q haid hq
  exact ⟨bcopy m aid n, hcopy, rfl, rfl, rfl, rfl, rfl, rfl, rfl, rfl, rfl⟩

/-- Witness for C10: the copy delivered to "A2" has priority 1 and does not
require a response although the original had priority 3 and required one. -/
theorem c10_witness :
    ∃ c, lookupA (send_message bmEx brokerEx).2.agent_queues "A2" =
        some ([] ++ [c]) ∧
      c.priority = 1 ∧ c.requires_response = false ∧
      c.sender = bmEx.sender ∧ c.recipient = "A2" ∧ c.message_type = bmEx.message_type ∧
      c.content = bmEx.content ∧ c.metadata = bmEx.metadata ∧ c.timestamp = bmEx.timestamp ∧
      c.conversation_id = bmEx.conversation_id :=
  c10_broadcast_copy_defaults brokerEx bmEx (by decide) (by decide) "A2" []
    (by decide) (by decide)

/-! Counterexamples: concrete runs, built from the empty scheduler through the
public operations, on which the spec claims fail. -/

/-- C1 counterexample: creating a task whose dependency list names the
nonexistent task "missing" does not fail - the task is stored in `pending`
with the dangling dependency and one row is persisted. -/
theorem c1_counterexample :
    lookupA SchedState.empty.tasks "missing" = none ∧
    (lookupA exC1.2.tasks "uuid-0").isSome = true ∧
    exC1.2.db_rows.length = 1 ∧
    exC1.1.dependencies = ["missing"] ∧
    exC1.1.status = TaskStatus.pending := by decide

/-- C2 counterexample: a task in the terminal status completed is accepted by
a subsequent `assign_task`, which succeeds and moves it back to assigned. -/
theorem c2_counterexample :
    (lookupA exTerm1.2.tasks "uuid-0").map Task.status = some TaskStatus.completed ∧
    exTerm2.1 = true ∧
    (lookupA exTerm2.2.tasks "uuid-0").map Task.status = some TaskStatus.assigned := by decide

/-- C3 counterexample: after its only dependency completes, the blocked task
"uuid-1" (with `assigned_agent = "A1"` set) ends in pending - it is not
re-assigned and no second `task_assignment` message is sent. -/
theorem c3_counterexample :
    (lookupA exDep2.2.tasks "uuid-1").map Task.status = some TaskStatus.blocked ∧
    (lookupA exDep2.2.tasks "uuid-1").map Task.assigned_agent = some (some "A1") ∧
    (lookupA exDep3.2.tasks "uuid-1").map Task.status = some TaskStatus.pending ∧
    (exDep3.2.sent.filter
      (fun mm => mm.message_type == MessageType.task_assignment)).length = 1 := by decide

/-- C4 counterexample: create, assign, then complete through
`update_task_progress` - the task reaches the terminal status completed yet
stays in agent "A"'s workload list, violating the workload biconditional. -/
theorem c4_counterexample :
    (lookupA exWork2.2.tasks "uuid-0").map Task.status = some TaskStatus.completed ∧
    lookupA exWork2.2.agent_workloads "A" = some ["uuid-0"] ∧
    (get_agent_workload "A" exWork2.2).map Task.id = ["uuid-0"] := by decide

/-- C5 counterexample: two pending tasks of equal priority created at times 0
and 1; `get_available_tasks` returns the newer first, not the older (the
Python sort passes `reverse=True` for the whole `(priority, created_at)`
tuple). -/
theorem c5_counterexample :
    (get_available_tasks none exAvail.2).map Task.id = ["uuid-1", "uuid-0"] ∧
    (lookupA exAvail.2.tasks "uuid-0").map Task.priority = some 2 ∧
    (lookupA exAvail.2.tasks "uuid-1").map Task.priority = some 2 ∧
    (lookupA exAvail.2.tasks "uuid-0").map Task.created_at = some 0 ∧
    (lookupA exAvail.2.tasks "uuid-1").map Task.created_at = some 1 := by decide

/-- C7 counterexample: completing a task through `update_task_progress 1.0`
(creator "u", assignee "A") leaves the task in "A"'s workload and sends no
`task_completion` message - the completion routine of `complete_task` is not
run. -/
theorem c7_counterexample :
    (lookupA exWork2.2.tasks "uuid-0").map Task.status = some TaskStatus.completed ∧
    (lookupA exWork2.2.tasks "uuid-0").map Task.created_by = some "u" ∧
    (lookupA exWork2.2.tasks "uuid-0").map Task.assigned_agent = some (some "A") ∧
    lookupA exWork2.2.agent_workloads "A" = some ["uuid-0"] ∧
    (exWork2.2.sent.filter
      (fun mm => mm.message_type == MessageType.task_completion)).length = 0 := by decide

/-! Scheduler lemmas: dependency checks and the unblock sweep. -/

/-- The dependency check holds iff every dependency resolves to a completed
task. -/
lemma check_dependencies_iff (s : SchedState) (t : Task) :
    check_dependencies s t = true ↔
      ∀ d ∈ t.dependencies,
        ∃ dt, lookupA s.tasks d = some dt ∧ dt.status = TaskStatus.completed := by
  unfold check_dependencies
  rw [List.all_eq_true]
  constructor
  · intro h d hd
    have hdd := h d hd
    cases hld : lookupA s.tasks d with
    | none => rw [hld] at hdd; simp at hdd
    | some dt =>
      rw [hld] at hdd
      simp only [decide_eq_true_eq] at hdd
      exact ⟨dt, rfl, hdd⟩
  · intro h d hd
    obtain ⟨dt, hl, hst⟩ := h d hd
    rw [hl]
    simp [hst]

/-- A sweep step only rewrites the `tasks` table. -/
lemma sweepStep_frame (cid : String) (s : SchedState) (tid : String) :
    (sweepStep cid s tid).sent = s.sent ∧
    (sweepStep cid s tid).agent_workloads = s.agent_workloads ∧
    (sweepStep cid s tid).db_rows = s.db_rows ∧
    (sweepStep cid s tid).now = s.now ∧
    (sweepStep cid s tid).nextId = s.nextId := by
  unfold sweepStep
  cases lookupA s.tasks tid with
  | none => exact ⟨rfl, rfl, rfl, rfl, rfl⟩
  | some t =>
    dsimp only
    split
    · exact ⟨rfl, rfl, rfl, rfl, rfl⟩
    · exact ⟨rfl, rfl, rfl, rfl, rfl⟩

/-- The whole sweep only rewrites the `tasks` table: no messages are sent, no
workload entry changes, no row is persisted. -/
lemma sweepGo_frame (cid : String) : ∀ (ks : List String) (s : SchedState),
    (ks.foldl (sweepStep cid) s).sent = s.sent ∧
    (ks.foldl (sweepStep cid) s).agent_workloads = s.agent_workloads ∧
    (ks.foldl (sweepStep cid) s).db_rows = s.db_rows ∧
    (ks.foldl (sweepStep cid) s).now = s.now ∧
    (ks.foldl (sweepStep cid) s).nextId = s.nextId := by
  intro ks
  induction ks with
  | nil => intro s; exact ⟨rfl, rfl, rfl, rfl, rfl⟩
  | cons a rest ih =>
    intro s
    obtain ⟨h1, h2, h3, h4, h5⟩ := ih (sweepStep cid s a)
    obtain ⟨g1, g2, g3, g4, g5⟩ := sweepStep_frame cid s a
    rw [List.foldl_cons]
    exact ⟨h1.trans g1, h2.trans g2, h3.trans g3, h4.trans g4, h5.trans g5⟩

/-- `check_dependent_tasks` only rewrites the `tasks` table. -/
lemma check_dependent_tasks_frame (cid : String) (s : SchedState) :
    (check_dependent_tasks cid s).sent = s.sent ∧
    (check_dependent_tasks cid s).agent_workloads = s.agent_workloads ∧
    (check_dependent_tasks cid s).db_rows = s.db_rows ∧
    (check_dependent_tasks cid s).now = s.now ∧
    (check_dependent_tasks cid s).nextId = s.nextId :=
  sweepGo_frame cid (s.tasks.map Prod.fst) s

/-- A sweep step looking at one key leaves lookups of other keys unchanged. -/
lemma sweepStep_lookup_other (cid a tid : String) (s : SchedState) (hne : a ≠ tid) :
    lookupA (sweepStep cid s a).tasks tid = lookupA s.tasks tid := by
  unfold sweepStep
  cases lookupA s.tasks a with
  | none => rfl
  | some ta =>
    dsimp only
    split
    · dsimp only
      rw [lookupA_updateA, if_neg hne]
    · rfl

/-- A sweep step never touches a completed task (it only moves blocked tasks),
so completed dependencies stay completed. -/
lemma sweepStep_preserves_completed (cid a d : String) (s : SchedState) (dt : Task)
    (h : lookupA s.tasks d = some dt) (hc : dt.status = TaskStatus.completed) :
    lookupA (sweepStep cid s a).tasks d = some dt := by
  by_cases had : a = d
  · subst had
    unfold sweepStep
    rw [h]
    dsimp only
    split
    · next hcond =>
      rw [hc] at hcond
      exact absurd hcond.2.1 (by simp)
    · exact h
  · rw [sweepStep_lookup_other cid a d s had]
    exact h

/-- The dependency check of a task survives a sweep step. -/
lemma sweepStep_check_preserved (cid a : String) (s : SchedState) (t : Task)
    (h : check_dependencies s t = true) :
    check_dependencies (sweepStep cid s a) t = true := by
  rw [check_dependencies_iff] at h ⊢
  intro d hd
  obtain ⟨dt, hl, hc⟩ := h d hd
  exact ⟨dt, sweepStep_preserves_completed cid a d s dt hl hc, hc⟩

/-- A task that is not blocked is untouched by the sweep. -/
lemma sweep_preserves_nonblocked (cid : String) :
    ∀ (ks : List String) (s : SchedState) (tid : String) (t : Task),
      lookupA s.tasks tid = some t → t.status ≠ TaskStatus.blocked →
      lookupA ((ks.foldl (sweepStep cid) s).tasks) tid = some t := by
  intro ks
  induction ks with
  | nil => intro s tid t h _; exact h
  | cons a rest ih =>
    intro s tid t h hnb
    rw [List.foldl_cons]
    refine ih (sweepStep cid s a) tid t ?_ hnb
    by_cases ha : a = tid
    · subst ha
      unfold sweepStep
      rw [h]
      dsimp only
      split
      · next hcond => exact absurd hcond.2.1 hnb
      · exact h
    · rw [sweepStep_lookup_other cid a tid s ha]
      exact h

/-- The sweep moves a blocked task with satisfied dependencies to pending (and
touches nothing else about it). -/
lemma sweep_unblocks_aux (cid : String) :
    ∀ (ks : List String) (s : SchedState) (tid : String) (t : Task),
      lookupA s.tasks tid = some t → tid ∈ ks → cid ∈ t.dependencies →
      t.status = TaskStatus.blocked → check_dependencies s t = true →
      lookupA ((ks.foldl (sweepStep cid) s).tasks) tid =
        some { t with status := TaskStatus.pending, updated_at := s.now } := by
  intro ks
  induction ks with
  | nil => intro s tid t _ hmem; simp at hmem
  | cons a rest ih =>
    intro s tid t hl hmem hdep hblocked hcheck
    rw [List.foldl_cons]
    by_cases ha : a = tid
    · subst ha
      have hstep : lookupA (sweepStep cid s a).tasks a =
          some { t with status := TaskStatus.pending, updated_at := s.now } := by
        unfold sweepStep
        rw [hl]
        dsimp only
        rw [if_pos ⟨hdep, hblocked, hcheck⟩]
        dsimp only
        rw [lookupA_updateA, if_pos rfl, hl]
        rfl
      exact sweep_preserves_nonblocked cid rest (sweepStep cid s a) a _ hstep (by simp)
    · have hl' : lookupA (sweepStep cid s a).tasks tid = some t := by
        rw [sweepStep_lookup_other cid a tid s ha]
        exact hl
      have hmem' : tid ∈ rest := by
        rcases List.mem_cons.mp hmem with h | h
        · exact absurd h.symm ha
        · exact h
      have hnow : (sweepStep cid s a).now = s.now := (sweepStep_frame cid s a).2.2.2.1
      rw [← hnow]
      exact ih (sweepStep cid s a) tid t hl' hmem' hdep hblocked
        (sweepStep_check_preserved cid a s t hcheck)

/-- `check_dependent_tasks` unblocks every blocked task whose dependencies are
all completed. -/
lemma check_dependent_tasks_unblocks (cid : String) (s : SchedState) (tid : String)
    (t : Task) (hl : lookupA s.tasks tid = some t) (hdep : cid ∈ t.dependencies)
    (hblocked : t.status = TaskStatus.blocked) (hcheck : check_dependencies s t = true) :
    lookupA (check_dependent_tasks cid s).tasks tid =
      some { t with status := TaskStatus.pending, updated_at := s.now } :=
  sweep_unblocks_aux cid (s.tasks.map Prod.fst) s tid t hl
    (mem_keys_of_lookupA tid s.tasks t hl) hdep hblocked hcheck

/-- `check_dependent_tasks` leaves non-blocked tasks exactly as they are. -/
lemma check_dependent_tasks_preserves_nonblocked (cid : String) (s : SchedState)
    (tid : String) (t : Task) (hl : lookupA s.tasks tid = some t)
    (hnb : t.status ≠ TaskStatus.blocked) :
    lookupA (check_dependent_tasks cid s).tasks tid = some t :=
  sweep_preserves_nonblocked cid (s.tasks.map Prod.fst) s tid t hl hnb

/-- Updating one key preserves whether any lookup succeeds. -/
lemma lookupA_updateA_isSome {α : Type} (k x : String) (f : α → α) (l : List (String × α)) :
    (lookupA (updateA k f l) x).isSome = (lookupA l x).isSome := by
  rw [lookupA_updateA]
  by_cases h : k = x
  · rw [if_pos h]; cases lookupA l x <;> rfl
  · rw [if_neg h]

/-- `assign_task` never persists a row. -/
lemma assign_task_db_rows (tid aid : String) (s : SchedState) :
    (assign_task tid aid s).2.db_rows = s.db_rows := by
  unfold assign_task
  cases lookupA s.tasks tid with
  | none => rfl
  | some t => dsimp only; split <;> rfl

/-- `assign_task` never adds or removes a task entry. -/
lemma assign_task_isSome (tid aid x : String) (s : SchedState) :
    (lookupA (assign_task tid aid s).2.tasks x).isSome = (lookupA s.tasks x).isSome := by
  unfold assign_task
  cases lookupA s.tasks tid with
  | none => rfl
  | some t =>
    dsimp only
    split
    · dsimp only; rw [lookupA_updateA_isSome]
    · dsimp only; rw [lookupA_updateA_isSome]

/-- C1 (amended): `create_task` performs no dependency validation at all - for
every state and every dependency list (missing or not), the new task is stored
and exactly one row is persisted, in status pending with the dependency list
taken verbatim. -/
theorem c1_create_always_persists (s : SchedState) (title description created_by : String)
    (assigned_agent : Option String) (priority : Nat) (due_date : Option Nat)
    (dependencies : List String) (parent_task : Option String) :
    (lookupA (create_task title description created_by assigned_agent priority due_date
        dependencies parent_task s).2.tasks (uuidName s.nextId)).isSome = true ∧
    ∃ t0, (create_task title description created_by assigned_agent priority due_date
        dependencies parent_task s).2.db_rows = s.db_rows ++ [t0] ∧
      t0.dependencies = dependencies ∧ t0.id = uuidName s.nextId ∧
      t0.status = TaskStatus.pending := by
  have hbase := lookupA_setA_self (uuidName s.nextId)
    { id := uuidName s.nextId, title := title, description := description
      assigned_agent := assigned_agent, created_by := created_by
      status := TaskStatus.pending, priority := priority
      created_at := s.now, updated_at := s.now, due_date := due_date
      dependencies := dependencies, subtasks := [], parent_task := parent_task
      progress := 0, result := none, error_message := none } s.tasks
  rcases assigned_agent with _ | a <;> rcases parent_task with _ | p <;>
    unfold create_task <;> dsimp only
  · exact ⟨by rw [hbase]; rfl, ⟨_, rfl, rfl, rfl, rfl⟩⟩
  · split
    · exact ⟨by rw [lookupA_updateA_isSome, hbase]; rfl, ⟨_, rfl, rfl, rfl, rfl⟩⟩
    · exact ⟨by rw [hbase]; rfl, ⟨_, rfl, rfl, rfl, rfl⟩⟩
  · refine ⟨?_, ?_⟩
    · rw [assign_task_isSome, hbase]; rfl
    · rw [assign_task_db_rows]
      exact ⟨_, rfl, rfl, rfl, rfl⟩
  · split
    · refine ⟨?_, ?_⟩
      · rw [assign_task_isSome, lookupA_updateA_isSome, hbase]; rfl
      · rw [assign_task_db_rows]
        exact ⟨_, rfl, rfl, rfl, rfl⟩
    · refine ⟨?_, ?_⟩
      · rw [assign_task_isSome, hbase]; rfl
      · rw [assign_task_db_rows]
        exact ⟨_, rfl, rfl, rfl, rfl⟩

/-- Witness for C1: creating against the empty scheduler with the dangling
dependency list `["missing"]` stores the task and persists its row. -/
theorem c1_witness :
    (lookupA (create_task "T" "d" "u" none 2 none ["missing"] none
        SchedState.empty).2.tasks (uuidName SchedState.empty.nextId)).isSome = true ∧
    ∃ t0, (create_task "T" "d" "u" none 2 none ["missing"] none
        SchedState.empty).2.db_rows = SchedState.empty.db_rows ++ [t0] ∧
      t0.dependencies = ["missing"] ∧ t0.id = uuidName SchedState.empty.nextId ∧
      t0.status = TaskStatus.pending :=
  c1_create_always_persists SchedState.empty "T" "d" "u" none 2 none ["missing"] none

/-- C2 (amended): none of the state-changing operations checks for a terminal
status - on an existing terminal task, `assign_task` (dependencies permitting)
succeeds and re-opens it to assigned, `update_task_progress`, `complete_task`
and `fail_task` all succeed and mutate it; only a missing task id is
rejected. -/
theorem c2_no_terminal_guard (s : SchedState) (tid aid err : String) (t : Task)
    (result : Option String) (p : ℚ) (stOpt : Option TaskStatus)
    (hl : lookupA s.tasks tid = some t)
    (_hterm : t.status = TaskStatus.completed ∨ t.status = TaskStatus.failed ∨
      t.status = TaskStatus.cancelled) :
    (check_dependencies s t = true →
      (assign_task tid aid s).1 = true ∧
      (lookupA (assign_task tid aid s).2.tasks tid).map Task.status =
        some TaskStatus.assigned) ∧
    (update_task_progress tid p stOpt s).1 = true ∧
    (complete_task tid result s).1 = true ∧
    (fail_task tid err s).1 = true ∧
    (lookupA (fail_task tid err s).2.tasks tid).map Task.status =
      some TaskStatus.failed := by
  refine ⟨?_, ?_, ?_, ?_, ?_⟩
  · intro hdeps
    unfold assign_task
    rw [hl]
    dsimp only
    rw [if_neg (by simp [hdeps])]
    refine ⟨rfl, ?_⟩
    rw [lookupA_updateA, if_pos rfl, hl]
    rfl
  · unfold update_task_progress
    rw [hl]
    dsimp only
    split <;> rfl
  · unfold complete_task
    rw [hl]
  · unfold fail_task
    rw [hl]
  · unfold fail_task
    rw [hl]
    dsimp only
    rw [lookupA_updateA, if_pos rfl, hl]
    rfl

/-- Witness for C2 at the completed task "uuid-0" of `exTerm1`. -/
theorem c2_witness :
    (check_dependencies exTerm1.2 exTermTask = true →
      (assign_task "uuid-0" "A" exTerm1.2).1 = true ∧
      (lookupA (assign_task "uuid-0" "A" exTerm1.2).2.tasks "uuid-0").map Task.status =
        some TaskStatus.assigned) ∧
    (update_task_progress "uuid-0" 0 none exTerm1.2).1 = true ∧
    (complete_task "uuid-0" none exTerm1.2).1 = true ∧
    (fail_task "uuid-0" "boom" exTerm1.2).1 = true ∧
    (lookupA (fail_task "uuid-0" "boom" exTerm1.2).2.tasks "uuid-0").map Task.status =
      some TaskStatus.failed :=
  c2_no_terminal_guard exTerm1.2 "uuid-0" "A" "boom" exTermTask none 0 none
    (by decide) (by decide)

/-- C4 (amended): a successful `assign_task` does append the task to the target
agent's workload list and records the assignment on the task; the full
workload biconditional of the claim fails (see the counterexample) because
`update_task_progress` never updates workload lists. -/
theorem c4_assign_adds_to_workload (s : SchedState) (tid aid : String) (t : Task)
    (hl : lookupA s.tasks tid = some t) (hdeps : check_dependencies s t = true) :
    (assign_task tid aid s).1 = true ∧
    tid ∈ ((lookupA (assign_task tid aid s).2.agent_workloads aid).getD []) ∧
    (lookupA (assign_task tid aid s).2.tasks tid).map Task.status =
      some TaskStatus.assigned ∧
    (lookupA (assign_task tid aid s).2.tasks tid).map Task.assigned_agent =
      some (some aid) := by
  unfold assign_task
  rw [hl]
  dsimp only
  rw [if_neg (by simp [hdeps])]
  refine ⟨rfl, ?_, ?_, ?_⟩
  · dsimp only
    rw [lookupA_setA_self]
    simp
  · rw [lookupA_updateA, if_pos rfl, hl]
    rfl
  · rw [lookupA_updateA, if_pos rfl, hl]
    rfl

/-- Witness for C4: assigning the fresh pending task "uuid-0" to "A". -/
theorem c4_witness :
    (assign_task "uuid-0" "A" exTerm0.2).1 = true ∧
    "uuid-0" ∈ ((lookupA (assign_task "uuid-0" "A" exTerm0.2).2.agent_workloads "A").getD []) ∧
    (lookupA (assign_task "uuid-0" "A" exTerm0.2).2.tasks "uuid-0").map Task.status =
      some TaskStatus.assigned ∧
    (lookupA (assign_task "uuid-0" "A" exTerm0.2).2.tasks "uuid-0").map Task.assigned_agent =
      some (some "A") :=
  c4_assign_adds_to_workload exTerm0.2 "uuid-0" "A" exPendingTask (by decide) (by decide)

/-- C7 (amended): on an existing task `update_task_progress` succeeds, clamps
the stored progress to [0,1] and applies the status rule (explicit status
wins, else progress ≥ 1 completes, else positive progress starts the task) -
but on the transition to completed it runs only the unblock sweep: the
workload tables and the outgoing-message trace are left untouched, so the task
is not cleared from its agent's workload and no `task_completion` message is
posted. -/
theorem c7_update_progress (s : SchedState) (tid : String) (t : Task) (p : ℚ)
    (stOpt : Option TaskStatus) (hl : lookupA s.tasks tid = some t) :
    (update_task_progress tid p stOpt s).1 = true ∧
    (update_task_progress tid p stOpt s).2.agent_workloads = s.agent_workloads ∧
    (update_task_progress tid p stOpt s).2.sent = s.sent ∧
    ∃ t', lookupA (update_task_progress tid p stOpt s).2.tasks tid = some t' ∧
      t'.progress = max 0 (min 1 p) ∧ t'.status = newStatusOf t p stOpt ∧
      t'.assigned_agent = t.assigned_agent := by
  unfold update_task_progress
  rw [hl]
  dsimp only
  by_cases hc : newStatusOf t p stOpt = TaskStatus.completed
  · rw [if_pos hc]
    refine ⟨rfl, ?_, ?_, ?_⟩
    · exact (check_dependent_tasks_frame tid _).2.1
    · exact (check_dependent_tasks_frame tid _).1
    · refine ⟨{ t with
          progress := max 0 (min 1 p)
          updated_at := s.now
          status := newStatusOf t p stOpt }, ?_, rfl, rfl, rfl⟩
      refine check_dependent_tasks_preserves_nonblocked tid _ tid _ ?_ ?_
      · rw [lookupA_updateA, if_pos rfl, hl]
        rfl
      · show newStatusOf t p stOpt ≠ TaskStatus.blocked
        rw [hc]
        simp
  · rw [if_neg hc]
    refine ⟨rfl, rfl, rfl, ?_⟩
    refine ⟨{ t with
        progress := max 0 (min 1 p)
        updated_at := s.now
        status := newStatusOf t p stOpt }, ?_, rfl, rfl, rfl⟩
    rw [lookupA_updateA, if_pos rfl, hl]
    rfl

/-- Witness for C7: completing the assigned task "uuid-0" of `exWork1` by a
progress report of 1. -/
theorem c7_witness :
    (update_task_progress "uuid-0" 1 none exWork1.2).1 = true ∧
    (update_task_progress "uuid-0" 1 none exWork1.2).2.agent_workloads =
      exWork1.2.agent_workloads ∧
    (update_task_progress "uuid-0" 1 none exWork1.2).2.sent = exWork1.2.sent ∧
    ∃ t', lookupA (update_task_progress "uuid-0" 1 none exWork1.2).2.tasks "uuid-0" =
        some t' ∧
      t'.progress = max 0 (min 1 1) ∧ t'.status = newStatusOf exAssignedTask 1 none ∧
      t'.assigned_agent = exAssignedTask.assigned_agent :=
  c7_update_progress exWork1.2 "uuid-0" exAssignedTask 1 none (by decide)

/-- C3 (amended): when a task completes, the sweep transitions every blocked
task whose dependencies are now all completed to pending - but it does not
re-assign: the task's `assigned_agent` is merely kept, its final status is
pending rather than assigned, and every message produced by `complete_task` is
a `task_completion` (never a `task_assignment`). -/
theorem c3_sweep_only_unblocks (s : SchedState) (cid tid : String) (tc t : Task)
    (result : Option String)
    (hc : lookupA s.tasks cid = some tc)
    (ht : lookupA s.tasks tid = some t)
    (hne : tid ≠ cid)
    (hdep : cid ∈ t.dependencies)
    (hblocked : t.status = TaskStatus.blocked)
    (hothers : ∀ d ∈ t.dependencies, d ≠ cid →
      ∃ dt, lookupA s.tasks d = some dt ∧ dt.status = TaskStatus.completed) :
    (complete_task cid result s).1 = true ∧
    (∃ t', lookupA (complete_task cid result s).2.tasks tid = some t' ∧
      t'.status = TaskStatus.pending ∧ t'.assigned_agent = t.assigned_agent ∧
      t'.dependencies = t.dependencies) ∧
    ∀ mm ∈ (complete_task cid result s).2.sent,
      mm ∈ s.sent ∨ mm.message_type = MessageType.task_completion := by
  unfold complete_task
  rw [hc]
  dsimp only
  by_cases hmsg : tc.assigned_agent ≠ some tc.created_by <;>
      [rw [if_pos hmsg]; rw [if_neg hmsg]] <;>
    refine ⟨rfl, ?_, ?_⟩
  · refine ⟨_, check_dependent_tasks_unblocks cid _ tid t ?_ hdep hblocked ?_, rfl, rfl, rfl⟩
    · dsimp only
      rw [lookupA_updateA, if_neg (Ne.symm hne)]
      exact ht
    · rw [check_dependencies_iff]
      intro d hd
      by_cases hdc : d = cid
      · subst hdc
        refine ⟨{ tc with
            status := TaskStatus.completed
            progress := 1
            result := result
            updated_at := s.now }, ?_, rfl⟩
        dsimp only
        rw [lookupA_updateA, if_pos rfl, hc]
        rfl
      · obtain ⟨dt, hld, hsd⟩ := hothers d hd hdc
        refine ⟨dt, ?_, hsd⟩
        dsimp only
        rw [lookupA_updateA, if_neg (fun h => hdc h.symm)]
        exact hld
  · intro mm hmm
    rw [(check_dependent_tasks_frame cid _).1] at hmm
    dsimp only at hmm
    rcases List.mem_append.mp hmm with h | h
    · exact Or.inl h
    · right
      rw [List.mem_singleton.mp h]
      rfl
  · refine ⟨_, check_dependent_tasks_unblocks cid _ tid t ?_ hdep hblocked ?_, rfl, rfl, rfl⟩
    · dsimp only
      rw [lookupA_updateA, if_neg (Ne.symm hne)]
      exact ht
    · rw [check_dependencies_iff]
      intro d hd
      by_cases hdc : d = cid
      · subst hdc
        refine ⟨{ tc with
            status := TaskStatus.completed
            progress := 1
            result := result
            updated_at := s.now }, ?_, rfl⟩
        dsimp only
        rw [lookupA_updateA, if_pos rfl, hc]
        rfl
      · obtain ⟨dt, hld, hsd⟩ := hothers d hd hdc
        refine ⟨dt, ?_, hsd⟩
        dsimp only
        rw [lookupA_updateA, if_neg (fun h => hdc h.symm)]
        exact hld
  · intro mm hmm
    rw [(check_dependent_tasks_frame cid _).1] at hmm
    exact Or.inl hmm

/-- Witness for C3: completing "uuid-0" in `exDep2` unblocks the dependent
"uuid-1" to pending, keeping its assignee, with only `task_completion`
messages added. -/
theorem c3_witness :
    (complete_task "uuid-0" none exDep2.2).1 = true ∧
    (∃ t', lookupA (complete_task "uuid-0" none exDep2.2).2.tasks "uuid-1" = some t' ∧
      t'.status = TaskStatus.pending ∧ t'.assigned_agent = exBlockedT2.assigned_agent ∧
      t'.dependencies = exBlockedT2.dependencies) ∧
    ∀ mm ∈ (complete_task "uuid-0" none exDep2.2).2.sent,
      mm ∈ exDep2.2.sent ∨ mm.message_type = MessageType.task_completion :=
  c3_sweep_only_unblocks exDep2.2 "uuid-0" "uuid-1" exAssignedT1 exBlockedT2 none
    (by decide) (by decide) (by decide) (by decide) (by decide)
    (fun d hd hdc => absurd (List.mem_singleton.mp hd) hdc)

/-! Sorting lemmas for `get_available_tasks`. -/

/-- The strict key order is asymmetric. -/
lemma keyLt_asymm (a b : Nat × Nat) : keyLt a b → ¬ keyLt b a := by
  obtain ⟨a1, a2⟩ := a
  obtain ⟨b1, b2⟩ := b
  simp only [keyLt]
  omega

/-- Non-strict descent is transitive. -/
lemma keyGe_trans (a b c : Nat × Nat) : ¬ keyLt a b → ¬ keyLt b c → ¬ keyLt a c := by
  obtain ⟨a1, a2⟩ := a
  obtain ⟨b1, b2⟩ := b
  obtain ⟨c1, c2⟩ := c
  simp only [keyLt]
  omega

/-- Inserting permutes: the result holds the new element and the old ones. -/
lemma insertDesc_perm (a : Task) : ∀ l : List Task, (insertDesc a l).Perm (a :: l) := by
  intro l
  induction l with
  | nil => simp [insertDesc]
  | cons b bs ih =>
    unfold insertDesc
    split
    · exact (ih.cons b).trans (List.Perm.swap a b bs)
    · exact List.Perm.refl _

/-- Insertion preserves descending sortedness. -/
lemma insertDesc_sorted (a : Task) :
    ∀ l : List Task, l.Pairwise (fun x y => ¬ keyLt (sortKey x) (sortKey y)) →
      (insertDesc a l).Pairwise (fun x y => ¬ keyLt (sortKey x) (sortKey y)) := by
  intro l
  induction l with
  | nil => intro _; simp [insertDesc]
  | cons b bs ih =>
    intro hp
    obtain ⟨hb, hbs⟩ := List.pairwise_cons.mp hp
    unfold insertDesc
    split
    · next hlt =>
      refine List.pairwise_cons.mpr ⟨?_, ih hbs⟩
      intro x hx
      rcases List.mem_cons.mp ((insertDesc_perm a bs).mem_iff.mp hx) with rfl | hxbs
      · exact keyLt_asymm _ _ hlt
      · exact hb x hxbs
    · next hnlt =>
      refine List.pairwise_cons.mpr ⟨?_, hp⟩
      intro x hx
      rcases List.mem_cons.mp hx with rfl | hxbs
      · exact hnlt
      · exact keyGe_trans _ _ _ hnlt (hb x hxbs)

/-- The stable descending sort permutes its input. -/
lemma pySortDesc_perm : ∀ l : List Task, (pySortDesc l).Perm l := by
  intro l
  induction l with
  | nil => simp [pySortDesc]
  | cons a l ih => exact (insertDesc_perm a (pySortDesc l)).trans (ih.cons a)

/-- The stable descending sort sorts. -/
lemma pySortDesc_sorted : ∀ l : List Task,
    (pySortDesc l).Pairwise (fun x y => ¬ keyLt (sortKey x) (sortKey y)) := by
  intro l
  induction l with
  | nil => simp [pySortDesc]
  | cons a l ih => exact insertDesc_sorted a (pySortDesc l) ih

/-- The availability filter, spelled out. -/
lemma availPred_iff (s : SchedState) (agent_id : Option String) (t : Task) :
    availPred s agent_id t = true ↔
      (t.status = TaskStatus.pending ∧
       (∀ d ∈ t.dependencies,
         ∃ dt, lookupA s.tasks d = some dt ∧ dt.status = TaskStatus.completed) ∧
       (agent_id = none ∨ t.assigned_agent = none ∨ t.assigned_agent = agent_id)) := by
  unfold availPred
  rw [decide_eq_true_iff]
  rw [check_dependencies_iff]

/-- C5 (amended): `get_available_tasks` returns exactly the pending tasks
whose dependencies are all completed (restricted, when an agent is given, to
unassigned tasks or tasks assigned to that agent), sorted by the Python tuple
`(priority, created_at)` descending - priority descending and, within equal
priority, created_at descending (newest first, because `reverse=True` applies
to the whole tuple), not ascending as claimed. -/
theorem c5_available_filter_sorted (s : SchedState) (agent_id : Option String) :
    (∀ t, t ∈ get_available_tasks agent_id s ↔
      (t ∈ s.tasks.map Prod.snd ∧ t.status = TaskStatus.pending ∧
       (∀ d ∈ t.dependencies,
         ∃ dt, lookupA s.tasks d = some dt ∧ dt.status = TaskStatus.completed) ∧
       (agent_id = none ∨ t.assigned_agent = none ∨ t.assigned_agent = agent_id))) ∧
    (get_available_tasks agent_id s).Pairwise
      (fun a b => ¬ keyLt (sortKey a) (sortKey b)) := by
  constructor
  · intro t
    unfold get_available_tasks
    rw [(pySortDesc_perm _).mem_iff, List.mem_filter, availPred_iff]
  · exact pySortDesc_sorted _

end MiniS
